import Mathlib

/-!
# A client for the Pexels photo and video API: embedding of `main.go`

The Go file holds one type with state, `Client`, seven fetch operations that
all follow one path (build a URL, `requestDoWithAuth`, `io.ReadAll`,
`json.Unmarshal`) and one getter.  The embedding passes the receiver
explicitly and returns it together with the values the Go function returns.

What the Go code obtains from the standard library and from the network is
gathered in `Env`: the answer of the transport to a request, the verdict of
`http.NewRequest` on a URL, the JSON decoder and the number drawn by the random
generator.  The functions of the standard library whose behaviour the
properties depend on (`strconv.Atoi`, the `%d` verb, `Header.Get`,
`Header.Add`, the conversion to `int32`) are written out.

Every operation also returns the list of library calls it made, in order, so
that statements such as "the request carries this header" or "nothing was
decoded" can be made about the run.
-/

namespace Pexels

/-! ## Constants -/

def PhotoApi : String := "https://api.pexels.com/v1"

def VideoApi : String := "https://api.pexels.com/videos"

/-! ## Machine integers -/

/-- Go conversion `int32(x)` of an integer: the value modulo `2^32`, taken in
`[-2^31, 2^31)`. -/
def int32 (x : Int) : Int := (x + 2 ^ 31) % 2 ^ 32 - 2 ^ 31

/-- Values of Go type `int32`. -/
def IsInt32 (x : Int) : Prop := -(2 ^ 31) ≤ x ∧ x < 2 ^ 31

instance (x : Int) : Decidable (IsInt32 x) := by
  unfold IsInt32; infer_instance

/-! ## Decimal text: the `%d` verb and `strconv.Atoi` -/

/-- Decimal digit of a number below ten. -/
def digitChar (d : Nat) : Char :=
  match d with
  | 0 => '0' | 1 => '1' | 2 => '2' | 3 => '3' | 4 => '4'
  | 5 => '5' | 6 => '6' | 7 => '7' | 8 => '8' | _ => '9'

/-- The digit loop of `strconv.formatBits` in base ten: the last digit is
peeled off while the number has two digits or more.  `fuel` bounds the number
of rounds. -/
def formatBits (fuel : Nat) (u : Nat) (acc : List Char) : List Char :=
  match fuel with
  | 0 => acc
  | fuel + 1 =>
    if u < 10 then digitChar u :: acc
    else formatBits fuel (u / 10) (digitChar (u % 10) :: acc)

/-- Decimal digits of a natural number. -/
def FormatUint (u : Nat) : List Char := formatBits (u + 1) u []

/-- What `fmt.Sprintf` writes for the verb `%d`: a minus sign for a negative
number, then the decimal digits of the absolute value. -/
def FormatInt (i : Int) : String :=
  String.mk (if i < 0 then '-' :: FormatUint i.natAbs else FormatUint i.natAbs)

/-- The two errors of package `strconv`. -/
inductive NumError where
  | ErrSyntax
  | ErrRange
  deriving DecidableEq, Repr

/-- Value of a decimal digit, `none` for any other character. -/
def digitVal (ch : Char) : Option Nat :=
  if '0' ≤ ch ∧ ch ≤ '9' then some (ch.toNat - 48) else none

/-- The digit loop of `strconv.ParseUint` in base ten, without a bound: the
bound is checked by the caller. -/
def parseDigits (ds : List Char) (acc : Nat) : Option Nat :=
  match ds with
  | [] => some acc
  | ch :: rest =>
    match digitVal ch with
    | none => none
    | some d => parseDigits rest (acc * 10 + d)

/-- Go `strconv.Atoi`, that is `ParseInt(s, 10, 0)`: an optional sign, at
least one digit, nothing else, and the value has to fit the type `int` of
`intSize` bits. -/
def Atoi (intSize : Nat) (s : String) : Except NumError Int :=
  match s.toList with
  | [] => .error .ErrSyntax
  | c :: rest =>
    let neg : Bool := decide (c = '-')
    let ds : List Char := if c = '+' ∨ c = '-' then rest else c :: rest
    if ds = [] then .error .ErrSyntax
    else
      match parseDigits ds 0 with
      | none => .error .ErrSyntax
      | some un =>
        let cutoff : Nat := 2 ^ (intSize - 1)
        if neg = false ∧ un ≥ cutoff then .error .ErrRange
        else if neg = true ∧ un > cutoff then .error .ErrRange
        else .ok (if neg then -(un : Int) else (un : Int))

/-! ## HTTP messages -/

/-- Go `http.Header`: the values of each key, in the order they were added. -/
abbrev Header := List (String × List String)

/-- Go `Header.Get`: the first value of the key, the empty string when there is
none.  The keys this program passes are in canonical form already. -/
def Header.Get (h : Header) (key : String) : String :=
  match h.lookup key with
  | some (v :: _) => v
  | _ => ""

/-- Go `Header.Add`: the value is appended to the values of the key. -/
def Header.Add (h : Header) (key value : String) : Header :=
  match h with
  | [] => [(key, [value])]
  | (k, vs) :: rest =>
    if k = key then (k, vs ++ [value]) :: rest else (k, vs) :: Header.Add rest key value

/-- The fields of `http.Request` that this program sets. -/
structure Request where
  Method : String
  URL : String
  Header : Header
  deriving DecidableEq, Repr

/-- What `io.ReadAll` returns on a response body: the bytes and the error. -/
structure Body where
  data : String
  err : Option String
  deriving DecidableEq, Repr

/-- The fields of `http.Response` that a caller can look at. -/
structure Response where
  StatusCode : Int
  Header : Header
  Body : Body
  deriving DecidableEq, Repr

/-- Error values, by the call that produced them. -/
inductive Error where
  | request (msg : String)      -- http.NewRequest
  | transport (msg : String)    -- http.Client.Do
  | read (msg : String)         -- io.ReadAll
  | invalidJSON (msg : String)  -- json.Unmarshal: the text is not JSON
  | decode (msg : String)       -- json.Unmarshal: JSON that does not fit the target
  deriving DecidableEq, Repr

/-! ## Records of the API -/

structure PhotoSource where
  Original : String
  Large : String
  Large2x : String
  Medium : String
  Small : String
  Portrait : String
  Square : String
  Landscape : String
  Tiny : String
  deriving DecidableEq, Repr

structure Photo where
  Id : Int
  Width : Int
  Height : Int
  URL : String
  Photographer : String
  PhotographerURL : String
  Src : PhotoSource
  deriving DecidableEq, Repr

structure SearchResult where
  Page : Int
  PerPage : Int
  TotalResults : Int
  NextPage : String
  Photos : List Photo
  deriving DecidableEq, Repr

structure CuratedResult where
  Page : Int
  PerPage : Int
  NextPage : String
  Photos : List Photo
  deriving DecidableEq, Repr

structure VideoFile where
  Id : Int
  Quality : String
  FileType : String
  Width : Int
  Height : Int
  Link : String
  deriving DecidableEq, Repr

structure VideoPicture where
  Id : Int
  Picture : String
  Nr : Int
  deriving DecidableEq, Repr

/-- A value of Go type `any` as `encoding/json` fills it in, kept as the JSON
text it was decoded from; `none` is the nil interface. -/
abbrev AnyValue := Option String

/-- A `float64`, kept as its 64 bits: the program only stores it. -/
abbrev Float64Bits := Nat

structure Video where
  Id : Int
  Width : Int
  Height : Int
  URL : String
  Image : String
  FullRes : AnyValue
  Duration : Float64Bits
  VideoFiles : List VideoFile
  VideoPictures : List VideoPicture
  deriving DecidableEq, Repr

structure VideoSearchResult where
  Page : Int
  PerPage : Int
  TotalResults : Int
  NextPage : String
  Videos : List Video
  deriving DecidableEq, Repr

structure PopularVideo where
  Page : Int
  PerPage : Int
  TotalResults : Int
  URL : String
  Videos : List Video
  deriving DecidableEq, Repr

/-! Zero values: what `var result T` holds before `json.Unmarshal` runs. -/

def PhotoSource.zero : PhotoSource := ⟨"", "", "", "", "", "", "", "", ""⟩

def Photo.zero : Photo := ⟨0, 0, 0, "", "", "", PhotoSource.zero⟩

def SearchResult.zero : SearchResult := ⟨0, 0, 0, "", []⟩

def CuratedResult.zero : CuratedResult := ⟨0, 0, "", []⟩

def VideoSearchResult.zero : VideoSearchResult := ⟨0, 0, 0, "", []⟩

def PopularVideo.zero : PopularVideo := ⟨0, 0, 0, "", []⟩

/-! ## The environment -/

/-- What the program gets from outside: the standard library functions that are
not written out here, the network, and the random generator. -/
structure Env where
  /-- Number of bits of Go type `int` (`strconv.IntSize`): 32 or 64. -/
  intSize : Nat
  /-- Verdict of `http.NewRequest` on a method, after the empty method has been
  replaced by `GET`, and a URL: `none` when it builds the request, the error
  text otherwise. -/
  NewRequestErr : String → String → Option String
  /-- Go `http.Client.Do` on the zero `http.Client`: the response, or the error
  text. -/
  Do : Request → Except String Response
  /-- Go `json.checkValid`: `none` when the text is well-formed JSON. -/
  checkValid : String → Option String
  /-- Go `decodeState.unmarshal` for each target type: the target after the
  decoding and the error text, if any. -/
  decodeSearchResult : String → SearchResult → SearchResult × Option String
  decodeCuratedResult : String → CuratedResult → CuratedResult × Option String
  decodePhoto : String → Photo → Photo × Option String
  decodeVideoSearchResult : String → VideoSearchResult → VideoSearchResult × Option String
  decodePopularVideo : String → PopularVideo → PopularVideo × Option String
  /-- The 31-bit number that `rand.Int31n` keeps, after
  `rand.Seed(time.Now().Unix())`. -/
  Int31 : Nat

/-- The method that `http.NewRequest` works with: the empty method stands for
`GET`. -/
def methodOrGET (method : String) : String :=
  if method = "" then "GET" else method

/-- Go `http.NewRequest(method, url, nil)`: the empty method is replaced by
`GET`, then the method and the URL are checked; the result is a request with
that method and no header, or the error. -/
def NewRequest (E : Env) (method url : String) : Except Error Request :=
  let method := methodOrGET method
  match E.NewRequestErr method url with
  | some msg => .error (.request msg)
  | none => .ok { Method := method, URL := url, Header := [] }

/-- Go `json.Unmarshal(data, &v)`: the text is checked first, and the target
is not touched when the text is not JSON. -/
def Unmarshal {α : Type} (E : Env) (dec : String → α → α × Option String)
    (data : String) (v : α) : α × Option Error :=
  match E.checkValid data with
  | some msg => (v, some (.invalidJSON msg))
  | none => ((dec data v).1, (dec data v).2.map Error.decode)

/-- Go `rand.Int31n(n)` for `n > 0`, on the 31-bit number `v` that it keeps
(for an `n` that is not a power of two it draws again until the number is at
most `2^31 - 1 - 2^31 % n`): the low bits of `v` when `n` is a power of two,
`v % n` otherwise. -/
def Int31n (n : Nat) (v : Nat) : Int :=
  if n &&& (n - 1) = 0 then ((v &&& (n - 1) : Nat) : Int) else ((v % n : Nat) : Int)

/-! ## The client -/

/-- Go `http.Client`; the program uses the zero value and sets no field. -/
structure HttpClient where
  deriving DecidableEq, Repr

/-- `main.go`, lines 21 to 25. -/
structure Client where
  Token : String
  hc : HttpClient
  RemainingTimes : Int
  deriving DecidableEq, Repr

/-- The library calls that a run makes. -/
inductive Call where
  | NewRequest (method url : String)
  | Do (req : Request)
  | ReadAll
  | Unmarshal (data : String)
  deriving DecidableEq, Repr

/-- What a Go function of result type `(*T, error)` does: it returns a pair,
or the run stops in a panic. -/
inductive Ret (α : Type) where
  | pair (ptr : Option α) (err : Option Error)
  | panic
  deriving DecidableEq, Repr

/-- A run of a method of `Client`: the receiver afterwards, the library calls
made, and the result. -/
structure Outcome (α : Type) where
  c : Client
  calls : List Call
  ret : Ret α

/-- `main.go`, lines 91 to 110.  The request is built, the token is added as
the `Authorization` header, the transport is called; on a response the header
`X-Ratelimit-Remaining` is read with `strconv.Atoi` and, when that succeeds,
stored in the counter after conversion to `int32`. -/
def Client.requestDoWithAuth (E : Env) (c : Client) (method url : String) : Outcome Response :=
  match NewRequest E method url with
  | .error err => ⟨c, [.NewRequest method url], .pair none (some err)⟩
  | .ok req =>
    let req : Request := { req with Header := req.Header.Add "Authorization" c.Token }
    match E.Do req with
    | .error msg =>
      ⟨c, [.NewRequest method url, .Do req], .pair none (some (.transport msg))⟩
    | .ok resp =>
      match Atoi E.intSize (resp.Header.Get "X-Ratelimit-Remaining") with
      | .error _ => ⟨c, [.NewRequest method url, .Do req], .pair (some resp) none⟩
      | .ok times =>
        ⟨{ c with RemainingTimes := int32 times }, [.NewRequest method url, .Do req],
          .pair (some resp) none⟩

/-- `main.go`, lines 27 to 43.  The branch `.pair none none` stands for
`resp.Body` on a nil response, where Go panics; `requestDoWithAuth` never
returns that pair.  The deferred `resp.Body.Close()` has no effect on what is
returned and is left out. -/
def Client.SearchPhotos (E : Env) (c : Client) (query : String) (perPage page : Int) :
    Outcome SearchResult :=
  let url := PhotoApi ++ "/search?query=" ++ query ++ "&per_page=" ++ FormatInt perPage
    ++ "&page=" ++ FormatInt page
  let r := Client.requestDoWithAuth E c "GET" url
  match r.ret with
  | .panic => ⟨r.c, r.calls, .panic⟩
  | .pair _ (some err) => ⟨r.c, r.calls, .pair none (some err)⟩
  | .pair none none => ⟨r.c, r.calls, .panic⟩
  | .pair (some resp) none =>
    match resp.Body.err with
    | some msg => ⟨r.c, r.calls ++ [.ReadAll], .pair none (some (.read msg))⟩
    | none =>
      let res := Unmarshal E E.decodeSearchResult resp.Body.data SearchResult.zero
      ⟨r.c, r.calls ++ [.ReadAll, .Unmarshal resp.Body.data], .pair (some res.1) res.2⟩

/-- `main.go`, lines 45 to 61. -/
def Client.CuratedPhotos (E : Env) (c : Client) (perPage page : Int) : Outcome CuratedResult :=
  let url := PhotoApi ++ "/curated?per_page=" ++ FormatInt perPage ++ "&page=" ++ FormatInt page
  let r := Client.requestDoWithAuth E c "GET" url
  match r.ret with
  | .panic => ⟨r.c, r.calls, .panic⟩
  | .pair _ (some err) => ⟨r.c, r.calls, .pair none (some err)⟩
  | .pair none none => ⟨r.c, r.calls, .panic⟩
  | .pair (some resp) none =>
    match resp.Body.err with
    | some msg => ⟨r.c, r.calls ++ [.ReadAll], .pair none (some (.read msg))⟩
    | none =>
      let res := Unmarshal E E.decodeCuratedResult resp.Body.data CuratedResult.zero
      ⟨r.c, r.calls ++ [.ReadAll, .Unmarshal resp.Body.data], .pair (some res.1) res.2⟩

/-- `main.go`, lines 63 to 79. -/
def Client.GetPhoto (E : Env) (c : Client) (id : Int) : Outcome Photo :=
  let url := PhotoApi ++ "/photos/" ++ FormatInt id
  let r := Client.requestDoWithAuth E c "GET" url
  match r.ret with
  | .panic => ⟨r.c, r.calls, .panic⟩
  | .pair _ (some err) => ⟨r.c, r.calls, .pair none (some err)⟩
  | .pair none none => ⟨r.c, r.calls, .panic⟩
  | .pair (some resp) none =>
    match resp.Body.err with
    | some msg => ⟨r.c, r.calls ++ [.ReadAll], .pair none (some (.read msg))⟩
    | none =>
      let res := Unmarshal E E.decodePhoto resp.Body.data Photo.zero
      ⟨r.c, r.calls ++ [.ReadAll, .Unmarshal resp.Body.data], .pair (some res.1) res.2⟩

/-- `main.go`, lines 81 to 89.  `&result.Photos[0]` is the head of a list of
length one; the branch `.pair none none` stands for `result.Photos` on a nil
result. -/
def Client.GetRandomPhoto (E : Env) (c : Client) : Outcome Photo :=
  let randNum := Int31n 1001 E.Int31
  let r := Client.CuratedPhotos E c 1 randNum
  match r.ret with
  | .panic => ⟨r.c, r.calls, .panic⟩
  | .pair _ (some err) => ⟨r.c, r.calls, .pair none (some err)⟩
  | .pair none none => ⟨r.c, r.calls, .panic⟩
  | .pair (some result) none =>
    if result.Photos.length = 1 then ⟨r.c, r.calls, .pair result.Photos.head? none⟩
    else ⟨r.c, r.calls, .pair none none⟩

/-- `main.go`, lines 112 to 128. -/
def Client.SearchVideo (E : Env) (c : Client) (query : String) (perPage page : Int) :
    Outcome VideoSearchResult :=
  let url := VideoApi ++ "/search?query=" ++ query ++ "&per_page=" ++ FormatInt perPage
    ++ "&page=" ++ FormatInt page
  let r := Client.requestDoWithAuth E c "GET" url
  match r.ret with
  | .panic => ⟨r.c, r.calls, .panic⟩
  | .pair _ (some err) => ⟨r.c, r.calls, .pair none (some err)⟩
  | .pair none none => ⟨r.c, r.calls, .panic⟩
  | .pair (some resp) none =>
    match resp.Body.err with
    | some msg => ⟨r.c, r.calls ++ [.ReadAll], .pair none (some (.read msg))⟩
    | none =>
      let res := Unmarshal E E.decodeVideoSearchResult resp.Body.data VideoSearchResult.zero
      ⟨r.c, r.calls ++ [.ReadAll, .Unmarshal resp.Body.data], .pair (some res.1) res.2⟩

/-- `main.go`, lines 130 to 146. -/
def Client.PopularVideo (E : Env) (c : Client) (perPage page : Int) : Outcome PopularVideo :=
  let url := VideoApi ++ "/popular?per_page=" ++ FormatInt perPage ++ "&page=" ++ FormatInt page
  let r := Client.requestDoWithAuth E c "GET" url
  match r.ret with
  | .panic => ⟨r.c, r.calls, .panic⟩
  | .pair _ (some err) => ⟨r.c, r.calls, .pair none (some err)⟩
  | .pair none none => ⟨r.c, r.calls, .panic⟩
  | .pair (some resp) none =>
    match resp.Body.err with
    | some msg => ⟨r.c, r.calls ++ [.ReadAll], .pair none (some (.read msg))⟩
    | none =>
      let res := Unmarshal E E.decodePopularVideo resp.Body.data PopularVideo.zero
      ⟨r.c, r.calls ++ [.ReadAll, .Unmarshal resp.Body.data], .pair (some res.1) res.2⟩

/-- `main.go`, lines 148 to 156. -/
def Client.GetRandomVideo (E : Env) (c : Client) : Outcome Video :=
  let randNum := Int31n 1001 E.Int31
  let r := Client.PopularVideo E c 1 randNum
  match r.ret with
  | .panic => ⟨r.c, r.calls, .panic⟩
  | .pair _ (some err) => ⟨r.c, r.calls, .pair none (some err)⟩
  | .pair none none => ⟨r.c, r.calls, .panic⟩
  | .pair (some result) none =>
    if result.Videos.length = 1 then ⟨r.c, r.calls, .pair result.Videos.head? none⟩
    else ⟨r.c, r.calls, .pair none none⟩

/-- `main.go`, lines 158 to 160. -/
def Client.GetRemainingRequestInThisMonth (c : Client) : Int := c.RemainingTimes

/-- `main.go`, lines 162 to 169: the counter is not set and so is zero. -/
def NewClient (token : String) : Client :=
  { Token := token, hc := {}, RemainingTimes := 0 }

/-! ## The fetch operations as one family -/

/-- A call of one of the seven fetch operations, with its arguments. -/
inductive Op where
  | SearchPhotos (query : String) (perPage page : Int)
  | CuratedPhotos (perPage page : Int)
  | GetPhoto (id : Int)
  | GetRandomPhoto
  | SearchVideo (query : String) (perPage page : Int)
  | PopularVideo (perPage page : Int)
  | GetRandomVideo
  deriving DecidableEq, Repr

/-- A record returned by a fetch operation. -/
inductive Value where
  | SearchResult (v : SearchResult)
  | CuratedResult (v : CuratedResult)
  | Photo (v : Photo)
  | VideoSearchResult (v : VideoSearchResult)
  | PopularVideo (v : PopularVideo)
  | Video (v : Video)
  deriving DecidableEq, Repr

/-- The result with the record put in `Value`. -/
def Ret.map {α β : Type} (f : α → β) (r : Ret α) : Ret β :=
  match r with
  | .pair ptr err => .pair (ptr.map f) err
  | .panic => .panic

/-- The run with the record put in `Value`. -/
def Outcome.map {α β : Type} (f : α → β) (o : Outcome α) : Outcome β :=
  ⟨o.c, o.calls, o.ret.map f⟩

/-- Runs the method that the call names. -/
def Op.run (E : Env) (c : Client) (op : Op) : Outcome Value :=
  match op with
  | .SearchPhotos query perPage page =>
    (Client.SearchPhotos E c query perPage page).map Value.SearchResult
  | .CuratedPhotos perPage page => (Client.CuratedPhotos E c perPage page).map Value.CuratedResult
  | .GetPhoto id => (Client.GetPhoto E c id).map Value.Photo
  | .GetRandomPhoto => (Client.GetRandomPhoto E c).map Value.Photo
  | .SearchVideo query perPage page =>
    (Client.SearchVideo E c query perPage page).map Value.VideoSearchResult
  | .PopularVideo perPage page => (Client.PopularVideo E c perPage page).map Value.PopularVideo
  | .GetRandomVideo => (Client.GetRandomVideo E c).map Value.Video

/-- The record that an operation returns when `json.Unmarshal` has not filled
it in: the zero value for the five operations that return their own record,
no record for the two random picks. -/
def Op.untouched (op : Op) : Option Value :=
  match op with
  | .SearchPhotos _ _ _ => some (.SearchResult SearchResult.zero)
  | .CuratedPhotos _ _ => some (.CuratedResult CuratedResult.zero)
  | .GetPhoto _ => some (.Photo Photo.zero)
  | .GetRandomPhoto => none
  | .SearchVideo _ _ _ => some (.VideoSearchResult VideoSearchResult.zero)
  | .PopularVideo _ _ => some (.PopularVideo PopularVideo.zero)
  | .GetRandomVideo => none

/-! ## Names for what a run builds -/

/-- The URL that an operation builds. -/
def Op.url (E : Env) (op : Op) : String :=
  match op with
  | .SearchPhotos query perPage page =>
    PhotoApi ++ "/search?query=" ++ query ++ "&per_page=" ++ FormatInt perPage
      ++ "&page=" ++ FormatInt page
  | .CuratedPhotos perPage page =>
    PhotoApi ++ "/curated?per_page=" ++ FormatInt perPage ++ "&page=" ++ FormatInt page
  | .GetPhoto id => PhotoApi ++ "/photos/" ++ FormatInt id
  | .GetRandomPhoto =>
    PhotoApi ++ "/curated?per_page=" ++ FormatInt 1 ++ "&page=" ++ FormatInt (Int31n 1001 E.Int31)
  | .SearchVideo query perPage page =>
    VideoApi ++ "/search?query=" ++ query ++ "&per_page=" ++ FormatInt perPage
      ++ "&page=" ++ FormatInt page
  | .PopularVideo perPage page =>
    VideoApi ++ "/popular?per_page=" ++ FormatInt perPage ++ "&page=" ++ FormatInt page
  | .GetRandomVideo =>
    VideoApi ++ "/popular?per_page=" ++ FormatInt 1 ++ "&page=" ++ FormatInt (Int31n 1001 E.Int31)

/-- The request that `requestDoWithAuth` hands to the transport. -/
def authRequest (c : Client) (method url : String) : Request :=
  { Method := methodOrGET method, URL := url, Header := [("Authorization", [c.Token])] }

/-- The receiver after a response has come in. -/
def counted (E : Env) (c : Client) (resp : Response) : Client :=
  match Atoi E.intSize (resp.Header.Get "X-Ratelimit-Remaining") with
  | .error _ => c
  | .ok times => { c with RemainingTimes := int32 times }

/-! ## Reading a URL query string

The claim about the URL of a search is stated against the usual reading of a
query string (RFC 3986 and the form encoding, as in Go `url.Parse` and
`url.ParseQuery`): the query is what stands between the first `?` and the
fragment, its fields are separated by `&`, key and value are separated by the
first `=`, and in both `+` stands for a blank and `%XY` for the character with
that code. -/

/-- Go `strings.Cut` on one character: the text before its first occurrence
and the text after it, which is empty when the character does not occur. -/
def cut (sep : Char) (s : List Char) : List Char × List Char :=
  match s with
  | [] => ([], [])
  | ch :: rest => if ch = sep then ([], rest) else ((ch :: (cut sep rest).1), (cut sep rest).2)

/-- The pieces of a text between the occurrences of one character. -/
def pieces (sep : Char) (s : List Char) : List (List Char) :=
  match s with
  | [] => [[]]
  | ch :: rest =>
    if ch = sep then [] :: pieces sep rest
    else
      match pieces sep rest with
      | [] => [[ch]]
      | p :: ps => (ch :: p) :: ps

/-- The query string of a URL: the fragment is cut off at the first `#`, the
query starts after the first `?`. -/
def RawQuery (url : String) : String :=
  String.mk (cut '?' (cut '#' url.toList).1).2

/-- Value of a hexadecimal digit. -/
def unhex (ch : Char) : Option Nat :=
  if '0' ≤ ch ∧ ch ≤ '9' then some (ch.toNat - 48)
  else if 'a' ≤ ch ∧ ch ≤ 'f' then some (ch.toNat - 87)
  else if 'A' ≤ ch ∧ ch ≤ 'F' then some (ch.toNat - 55)
  else none

/-- Go `url.QueryUnescape`: `+` becomes a blank and `%XY` the character with
code `XY`; `none` when a `%` is not followed by two hexadecimal digits. -/
def QueryUnescape (s : List Char) : Option (List Char) :=
  match s with
  | [] => some []
  | ch :: rest =>
    if ch = '%' then
      match rest with
      | a :: b :: rest2 =>
        match unhex a, unhex b with
        | some x, some y => (QueryUnescape rest2).map (fun t => Char.ofNat (16 * x + y) :: t)
        | _, _ => none
      | _ => none
    else if ch = '+' then (QueryUnescape rest).map (fun t => ' ' :: t)
    else (QueryUnescape rest).map (fun t => ch :: t)

/-- One field of a query string: nothing for an empty field, the key and the
value otherwise; `none` for a field that cannot be read (a semicolon, a bad
escape). -/
def parseField (field : List Char) : Option (Option (String × String)) :=
  if ';' ∈ field then none
  else if field = [] then some none
  else
    match QueryUnescape (cut '=' field).1, QueryUnescape (cut '=' field).2 with
    | some key, some value => some (some (String.mk key, String.mk value))
    | _, _ => none

/-- Go `url.ParseQuery`: the keys with their values in the order of the text,
and whether some field could not be read. -/
def ParseQuery (query : String) : List (String × String) × Bool :=
  let fields := (pieces '&' query.toList).map parseField
  (fields.filterMap (fun f => f.join), fields.any (fun f => f.isNone))

/-- The parameters read from the query string of the URL that a run requests,
that is the URL of its call of `http.NewRequest`. -/
def Outcome.requestedQuery {α : Type} (o : Outcome α) : Option (List (String × String) × Bool) :=
  match o.calls.head? with
  | some (.NewRequest _ url) => some (ParseQuery (RawQuery url))
  | _ => none

/-- A character that splits or rewrites a query string. -/
def IsQueryMark (ch : Char) : Prop :=
  ch = '&' ∨ ch = '#' ∨ ch = ';' ∨ ch = '+' ∨ ch = '%' ∨ ch = '=' ∨ ch = '?'

/-! ## Environments for comparison and for examples -/

/-- The environment in which every response has its status code replaced by
`s`, a function of the request and of the response; headers and body are
kept. -/
def Env.withStatus (E : Env) (s : Request → Response → Int) : Env :=
  { E with Do := fun req =>
      match E.Do req with
      | .error msg => .error msg
      | .ok resp => .ok { resp with StatusCode := s req resp } }

/-- A mock backend: a URL with a line break is refused, every request gets the same
answer, a body is JSON when
it starts with an opening brace, and decoding a listing yields the given
photos and videos.  `draw` is the number of the random generator. -/
def mockEnv (answer : Except String Response) (photos : List Photo) (videos : List Video)
    (draw : Nat) : Env :=
  { intSize := 64
    NewRequestErr := fun _ url =>
      if '\n' ∈ url.toList then some "invalid control character in URL" else none
    Do := fun _ => answer
    checkValid := fun data =>
      if data.toList.head? = some '\x7b' then none else some "invalid character"
    decodeSearchResult := fun _ v => ({ v with Photos := photos }, none)
    decodeCuratedResult := fun _ v => ({ v with Photos := photos }, none)
    decodePhoto := fun _ v => (photos.headD v, none)
    decodeVideoSearchResult := fun _ v => ({ v with Videos := videos }, none)
    decodePopularVideo := fun _ v => ({ v with Videos := videos }, none)
    Int31 := draw }

/-- A response with one header line for the remaining quota. -/
def quotaResponse (status : Int) (remaining : String) (body : Body) : Response :=
  { StatusCode := status, Header := [("X-Ratelimit-Remaining", [remaining])], Body := body }

/-- A photo record for examples. -/
def samplePhoto : Photo := { Photo.zero with Id := 7, Photographer := "A" }

/-! ## The request path, case by case -/

theorem methodOrGET_GET : methodOrGET "GET" = "GET" := by decide

theorem requestDoWithAuth_request_error (E : Env) (c : Client) (method url msg : String)
    (h : E.NewRequestErr (methodOrGET method) url = some msg) :
    Client.requestDoWithAuth E c method url
      = ⟨c, [.NewRequest method url], .pair none (some (.request msg))⟩ := by
  simp [Client.requestDoWithAuth, NewRequest, h]

theorem requestDoWithAuth_transport_error (E : Env) (c : Client) (method url msg : String)
    (h : E.NewRequestErr (methodOrGET method) url = none)
    (hdo : E.Do (authRequest c method url) = .error msg) :
    Client.requestDoWithAuth E c method url
      = ⟨c, [.NewRequest method url, .Do (authRequest c method url)],
          .pair none (some (.transport msg))⟩ := by
  simp only [authRequest] at hdo
  simp [Client.requestDoWithAuth, NewRequest, h, Header.Add, hdo, authRequest]

theorem requestDoWithAuth_response (E : Env) (c : Client) (method url : String)
    (resp : Response) (h : E.NewRequestErr (methodOrGET method) url = none)
    (hdo : E.Do (authRequest c method url) = .ok resp) :
    Client.requestDoWithAuth E c method url
      = ⟨counted E c resp, [.NewRequest method url, .Do (authRequest c method url)],
          .pair (some resp) none⟩ := by
  simp only [authRequest] at hdo
  simp only [Client.requestDoWithAuth, NewRequest, h, Header.Add, hdo, authRequest, counted]
  cases Atoi E.intSize (resp.Header.Get "X-Ratelimit-Remaining") <;> rfl

theorem requestDoWithAuth_GET_request_error (E : Env) (c : Client) (url msg : String)
    (h : E.NewRequestErr "GET" url = some msg) :
    Client.requestDoWithAuth E c "GET" url
      = ⟨c, [.NewRequest "GET" url], .pair none (some (.request msg))⟩ :=
  requestDoWithAuth_request_error E c "GET" url msg (by rw [methodOrGET_GET]; exact h)

theorem requestDoWithAuth_GET_transport_error (E : Env) (c : Client) (url msg : String)
    (h : E.NewRequestErr "GET" url = none)
    (hdo : E.Do (authRequest c "GET" url) = .error msg) :
    Client.requestDoWithAuth E c "GET" url
      = ⟨c, [.NewRequest "GET" url, .Do (authRequest c "GET" url)],
          .pair none (some (.transport msg))⟩ :=
  requestDoWithAuth_transport_error E c "GET" url msg (by rw [methodOrGET_GET]; exact h) hdo

theorem requestDoWithAuth_GET_response (E : Env) (c : Client) (url : String)
    (resp : Response) (h : E.NewRequestErr "GET" url = none)
    (hdo : E.Do (authRequest c "GET" url) = .ok resp) :
    Client.requestDoWithAuth E c "GET" url
      = ⟨counted E c resp, [.NewRequest "GET" url, .Do (authRequest c "GET" url)],
          .pair (some resp) none⟩ :=
  requestDoWithAuth_response E c "GET" url resp (by rw [methodOrGET_GET]; exact h) hdo

theorem run_request_error (E : Env) (c : Client) (op : Op) (msg : String)
    (h : E.NewRequestErr "GET" (op.url E) = some msg) :
    op.run E c = ⟨c, [.NewRequest "GET" (op.url E)], .pair none (some (.request msg))⟩ := by
  cases op <;> simp only [Op.url] at h <;>
  simp [Op.run, Outcome.map, Ret.map, Client.SearchPhotos, Client.CuratedPhotos, Client.GetPhoto,
    Client.SearchVideo, Client.PopularVideo, Client.GetRandomPhoto, Client.GetRandomVideo,
    requestDoWithAuth_GET_request_error _ _ _ _ h, Op.url]

theorem run_transport_error (E : Env) (c : Client) (op : Op) (msg : String)
    (h : E.NewRequestErr "GET" (op.url E) = none)
    (hdo : E.Do (authRequest c "GET" (op.url E)) = .error msg) :
    op.run E c = ⟨c, [.NewRequest "GET" (op.url E), .Do (authRequest c "GET" (op.url E))],
      .pair none (some (.transport msg))⟩ := by
  cases op <;> simp only [Op.url] at h hdo <;>
  simp [Op.run, Outcome.map, Ret.map, Client.SearchPhotos, Client.CuratedPhotos, Client.GetPhoto,
    Client.SearchVideo, Client.PopularVideo, Client.GetRandomPhoto, Client.GetRandomVideo,
    requestDoWithAuth_GET_transport_error _ _ _ _ h hdo, Op.url]

theorem run_read_error (E : Env) (c : Client) (op : Op) (resp : Response) (msg : String)
    (h : E.NewRequestErr "GET" (op.url E) = none)
    (hdo : E.Do (authRequest c "GET" (op.url E)) = .ok resp)
    (hbody : resp.Body.err = some msg) :
    op.run E c = ⟨counted E c resp,
      [.NewRequest "GET" (op.url E), .Do (authRequest c "GET" (op.url E)), .ReadAll],
      .pair none (some (.read msg))⟩ := by
  cases op <;> simp only [Op.url] at h hdo <;>
  simp [Op.run, Outcome.map, Ret.map, Client.SearchPhotos, Client.CuratedPhotos, Client.GetPhoto,
    Client.SearchVideo, Client.PopularVideo, Client.GetRandomPhoto, Client.GetRandomVideo,
    requestDoWithAuth_GET_response _ _ _ _ h hdo, Op.url, hbody]

theorem run_invalid_json (E : Env) (c : Client) (op : Op) (resp : Response) (msg : String)
    (h : E.NewRequestErr "GET" (op.url E) = none)
    (hdo : E.Do (authRequest c "GET" (op.url E)) = .ok resp)
    (hbody : resp.Body.err = none) (hjson : E.checkValid resp.Body.data = some msg) :
    op.run E c = ⟨counted E c resp,
      [.NewRequest "GET" (op.url E), .Do (authRequest c "GET" (op.url E)), .ReadAll,
        .Unmarshal resp.Body.data],
      .pair op.untouched (some (.invalidJSON msg))⟩ := by
  cases op <;> simp only [Op.url] at h hdo <;>
  simp [Op.run, Outcome.map, Ret.map, Client.SearchPhotos, Client.CuratedPhotos, Client.GetPhoto,
    Client.SearchVideo, Client.PopularVideo, Client.GetRandomPhoto, Client.GetRandomVideo,
    requestDoWithAuth_GET_response _ _ _ _ h hdo, Op.url, hbody, Unmarshal, hjson, Op.untouched]

/-! ## Decimal text -/

theorem digitVal_digitChar (d : Nat) (h : d < 10) : digitVal (digitChar d) = some d := by
  interval_cases d <;> rfl

theorem digitChar_ne_sign (d : Nat) : digitChar d ≠ '+' ∧ digitChar d ≠ '-' := by
  unfold digitChar
  split <;> decide

theorem parseDigits_formatBits (fuel u : Nat) (acc : List Char) (h : u < fuel) :
    parseDigits (formatBits fuel u acc) 0 = parseDigits acc u := by
  induction fuel generalizing u acc with
  | zero => omega
  | succ fuel ih =>
    unfold formatBits
    split
    · rename_i hu
      simp [parseDigits, digitVal_digitChar u hu]
    · rename_i hu
      rw [ih (u / 10) _ (by omega)]
      simp only [parseDigits, digitVal_digitChar (u % 10) (Nat.mod_lt _ (by omega))]
      congr 1
      omega

theorem formatBits_head (fuel u : Nat) (acc : List Char) (h : u < fuel) :
    ∃ d rest, formatBits fuel u acc = digitChar d :: rest := by
  induction fuel generalizing u acc with
  | zero => omega
  | succ fuel ih =>
    unfold formatBits
    split
    · exact ⟨u, acc, rfl⟩
    · exact ih (u / 10) _ (by omega)

theorem parseDigits_FormatUint (u : Nat) : parseDigits (FormatUint u) 0 = some u := by
  unfold FormatUint
  rw [parseDigits_formatBits _ _ _ (by omega)]
  rfl

theorem FormatUint_head (u : Nat) : ∃ d rest, FormatUint u = digitChar d :: rest :=
  formatBits_head _ _ _ (by omega)

/-- The text that `%d` writes is read back by `strconv.Atoi` as the same
number, when the number fits the type `int`. -/
theorem Atoi_FormatInt (intSize : Nat) (n : Int)
    (hlo : -(2 ^ (intSize - 1) : Int) ≤ n) (hhi : n < 2 ^ (intSize - 1)) :
    Atoi intSize (FormatInt n) = .ok n := by
  obtain ⟨d, rest, hd⟩ := FormatUint_head n.natAbs
  have hp := parseDigits_FormatUint n.natAbs
  have hK : ((2 ^ (intSize - 1) : Nat) : Int) = (2 : Int) ^ (intSize - 1) := by push_cast; rfl
  generalize (2 : Int) ^ (intSize - 1) = K at hlo hhi hK
  unfold Atoi FormatInt
  generalize 2 ^ (intSize - 1) = Kn at hK ⊢
  generalize hN : n.natAbs = N at hd hp ⊢
  by_cases hn : n < 0
  · have h2 : ¬ (N > Kn) := by omega
    have h1 : -(N : Int) = n := by omega
    rw [if_pos hn]
    simp only [String.toList, decide_True, or_true, if_true, hp]
    rw [hd]
    simp [h2, h1]
  · obtain ⟨hplus, hminus⟩ := digitChar_ne_sign d
    have h1 : (N : Int) = n := by omega
    have h2 : ¬ (N ≥ Kn) := by omega
    rw [if_neg hn, hd]
    simp only [String.toList, hplus, hminus, or_self, if_false, decide_False]
    rw [← hd, hp]
    simp [h2, h1, hd]

/-! ## Query strings -/

theorem cut_of_not_mem (sep : Char) (a : List Char) (h : sep ∉ a) : cut sep a = (a, []) := by
  induction a with
  | nil => rfl
  | cons ch rest ih =>
    have h1 : ch ≠ sep := fun e => h (by simp [e])
    have h2 : sep ∉ rest := fun e => h (by simp [e])
    simp [cut, h1, ih h2]

theorem cut_append (sep : Char) (a b : List Char) (h : sep ∉ a) :
    cut sep (a ++ sep :: b) = (a, b) := by
  induction a with
  | nil => simp [cut]
  | cons ch rest ih =>
    have h1 : ch ≠ sep := fun e => h (by simp [e])
    have h2 : sep ∉ rest := fun e => h (by simp [e])
    simp [cut, h1, ih h2]

theorem pieces_of_not_mem (sep : Char) (a : List Char) (h : sep ∉ a) : pieces sep a = [a] := by
  induction a with
  | nil => rfl
  | cons ch rest ih =>
    have h1 : ch ≠ sep := fun e => h (by simp [e])
    have h2 : sep ∉ rest := fun e => h (by simp [e])
    simp [pieces, h1, ih h2]

theorem pieces_append (sep : Char) (a b : List Char) (h : sep ∉ a) :
    pieces sep (a ++ sep :: b) = a :: pieces sep b := by
  induction a with
  | nil => simp [pieces]
  | cons ch rest ih =>
    have h1 : ch ≠ sep := fun e => h (by simp [e])
    have h2 : sep ∉ rest := fun e => h (by simp [e])
    simp [pieces, h1, ih h2]

theorem QueryUnescape_plain (a : List Char) (h1 : '%' ∉ a) (h2 : '+' ∉ a) :
    QueryUnescape a = some a := by
  induction a with
  | nil => rfl
  | cons ch rest ih =>
    have e1 : ch ≠ '%' := fun e => h1 (by simp [e])
    have e2 : ch ≠ '+' := fun e => h2 (by simp [e])
    have r1 : '%' ∉ rest := fun e => h1 (by simp [e])
    have r2 : '+' ∉ rest := fun e => h2 (by simp [e])
    unfold QueryUnescape
    simp [e1, e2, ih r1 r2]

theorem digitChar_plain (d : Nat) : ¬ IsQueryMark (digitChar d) := by
  unfold digitChar IsQueryMark
  split <;> decide

theorem formatBits_plain (fuel u : Nat) (acc : List Char) (h : ∀ ch ∈ acc, ¬ IsQueryMark ch) :
    ∀ ch ∈ formatBits fuel u acc, ¬ IsQueryMark ch := by
  induction fuel generalizing u acc with
  | zero => simpa [formatBits] using h
  | succ fuel ih =>
    unfold formatBits
    split
    · intro ch hch
      rcases List.mem_cons.mp hch with e | e
      · rw [e]; exact digitChar_plain u
      · exact h ch e
    · apply ih
      intro ch hch
      rcases List.mem_cons.mp hch with e | e
      · rw [e]; exact digitChar_plain _
      · exact h ch e

theorem FormatInt_plain (n : Int) : ∀ ch ∈ (FormatInt n).toList, ¬ IsQueryMark ch := by
  have hu : ∀ ch ∈ FormatUint n.natAbs, ¬ IsQueryMark ch :=
    formatBits_plain _ _ _ (by simp)
  unfold FormatInt
  split
  · intro ch hch
    rcases List.mem_cons.mp hch with e | e
    · rw [e]; unfold IsQueryMark; decide
    · exact hu ch e
  · exact hu

theorem parseField_plain (key value : List Char)
    (hk : ∀ ch ∈ key, ¬ IsQueryMark ch)
    (hv : ∀ ch ∈ value, ch ≠ ';' ∧ ch ≠ '+' ∧ ch ≠ '%') :
    parseField (key ++ '=' :: value) = some (some (String.mk key, String.mk value)) := by
  have k1 : '=' ∉ key := fun h => hk _ h (by unfold IsQueryMark; decide)
  have k2 : '%' ∉ key := fun h => hk _ h (by unfold IsQueryMark; decide)
  have k3 : '+' ∉ key := fun h => hk _ h (by unfold IsQueryMark; decide)
  have k4 : ';' ∉ key := fun h => hk _ h (by unfold IsQueryMark; decide)
  have v1 : ';' ∉ value := fun h => (hv _ h).1 rfl
  have v2 : '+' ∉ value := fun h => (hv _ h).2.1 rfl
  have v3 : '%' ∉ value := fun h => (hv _ h).2.2 rfl
  have hsemi : ';' ∉ key ++ '=' :: value := by
    simp only [List.mem_append, List.mem_cons, not_or]
    exact ⟨k4, by decide, v1⟩
  unfold parseField
  rw [if_neg hsemi, if_neg (by simp), cut_append _ _ _ k1]
  simp only [QueryUnescape_plain key k2 k3, QueryUnescape_plain value v3 v2]

/-- The query string of a search URL reads back as the three parameters, when
the searched text has none of the characters `&`, `#`, `;`, `+` and `%`. -/
theorem search_url_query (base query : String) (perPage page : Int)
    (hbase : '?' ∉ base.toList ∧ '#' ∉ base.toList)
    (hq : ∀ ch ∈ query.toList, ch ≠ '&' ∧ ch ≠ '#' ∧ ch ≠ ';' ∧ ch ≠ '+' ∧ ch ≠ '%') :
    ParseQuery (RawQuery (base ++ "/search?query=" ++ query ++ "&per_page=" ++ FormatInt perPage
      ++ "&page=" ++ FormatInt page))
      = ([("query", query), ("per_page", FormatInt perPage), ("page", FormatInt page)], false) := by
  have hP := FormatInt_plain perPage
  have hG := FormatInt_plain page
  generalize (FormatInt perPage) = P at hP ⊢
  generalize (FormatInt page) = G at hG ⊢
  obtain ⟨B⟩ := base
  obtain ⟨Q⟩ := query
  obtain ⟨P⟩ := P
  obtain ⟨G⟩ := G
  simp only [String.toList] at hbase hq hP hG
  have hurl : (String.mk B ++ "/search?query=" ++ String.mk Q ++ "&per_page=" ++ String.mk P
      ++ "&page=" ++ String.mk G).toList
      = (B ++ "/search".toList) ++ '?' :: (("query".toList ++ '=' :: Q)
        ++ '&' :: (("per_page".toList ++ '=' :: P) ++ '&' :: ("page".toList ++ '=' :: G))) := by
    simp [String.toList]
  have nP : ∀ m, IsQueryMark m → m ∉ P := fun m hm h => hP m h hm
  have nG : ∀ m, IsQueryMark m → m ∉ G := fun m hm h => hG m h hm
  have hash : '#' ∉ (B ++ "/search".toList) ++ '?' :: (("query".toList ++ '=' :: Q)
        ++ '&' :: (("per_page".toList ++ '=' :: P) ++ '&' :: ("page".toList ++ '=' :: G))) := by
    have q1 : '#' ∉ Q := fun h => (hq _ h).2.1 rfl
    have p1 := nP '#' (by unfold IsQueryMark; decide)
    have g1 := nG '#' (by unfold IsQueryMark; decide)
    simp only [List.mem_append, List.mem_cons, not_or]
    refine ⟨⟨hbase.2, by decide⟩, by decide, ⟨by decide, by decide, q1⟩, by decide,
      ⟨by decide, by decide, p1⟩, by decide, by decide, by decide, g1⟩
  have quest : '?' ∉ B ++ "/search".toList := by
    simp only [List.mem_append, not_or]
    exact ⟨hbase.1, by decide⟩
  have amp1 : '&' ∉ "query".toList ++ '=' :: Q := by
    have q1 : '&' ∉ Q := fun h => (hq _ h).1 rfl
    simp only [List.mem_append, List.mem_cons, not_or]
    exact ⟨by decide, by decide, q1⟩
  have amp2 : '&' ∉ "per_page".toList ++ '=' :: P := by
    have p1 := nP '&' (by unfold IsQueryMark; decide)
    simp only [List.mem_append, List.mem_cons, not_or]
    exact ⟨by decide, by decide, p1⟩
  have amp3 : '&' ∉ "page".toList ++ '=' :: G := by
    have g1 := nG '&' (by unfold IsQueryMark; decide)
    simp only [List.mem_append, List.mem_cons, not_or]
    exact ⟨by decide, by decide, g1⟩
  have f1 := parseField_plain "query".toList Q (by unfold IsQueryMark; decide)
    (fun ch h => ⟨(hq ch h).2.2.1, (hq ch h).2.2.2.1, (hq ch h).2.2.2.2⟩)
  have f2 := parseField_plain "per_page".toList P (by unfold IsQueryMark; decide)
    (fun ch h => ⟨fun e => hP ch h (by rw [e]; unfold IsQueryMark; decide),
      fun e => hP ch h (by rw [e]; unfold IsQueryMark; decide),
      fun e => hP ch h (by rw [e]; unfold IsQueryMark; decide)⟩)
  have f3 := parseField_plain "page".toList G (by unfold IsQueryMark; decide)
    (fun ch h => ⟨fun e => hG ch h (by rw [e]; unfold IsQueryMark; decide),
      fun e => hG ch h (by rw [e]; unfold IsQueryMark; decide),
      fun e => hG ch h (by rw [e]; unfold IsQueryMark; decide)⟩)
  unfold ParseQuery RawQuery
  have e : ∀ l : List Char, (String.mk l).toList = l := fun _ => rfl
  rw [hurl, cut_of_not_mem _ _ hash, cut_append _ _ _ quest, e]
  rw [pieces_append _ _ _ amp1, pieces_append _ _ _ amp2, pieces_of_not_mem _ _ amp3]
  simp only [List.map, f1, f2, f3]
  rfl

/-! ## Every run, case by case -/

theorem run_body_read (E : Env) (c : Client) (op : Op) (resp : Response)
    (h : E.NewRequestErr "GET" (op.url E) = none)
    (hdo : E.Do (authRequest c "GET" (op.url E)) = .ok resp)
    (hbody : resp.Body.err = none) :
    (op.run E c).c = counted E c resp
    ∧ (op.run E c).calls = [.NewRequest "GET" (op.url E), .Do (authRequest c "GET" (op.url E)),
        .ReadAll, .Unmarshal resp.Body.data]
    ∧ ∃ ptr err, (op.run E c).ret = .pair ptr err := by
  cases op <;> simp only [Op.url] at h hdo <;>
  simp [Op.run, Outcome.map, Ret.map, Client.SearchPhotos, Client.CuratedPhotos, Client.GetPhoto,
    Client.SearchVideo, Client.PopularVideo, Client.GetRandomPhoto, Client.GetRandomVideo,
    requestDoWithAuth_GET_response _ _ _ _ h hdo, Op.url, hbody]
  all_goals
    generalize Unmarshal E _ resp.Body.data _ = u
    obtain ⟨v, e⟩ := u
    cases e with
    | some err => simp
    | none =>
      simp
      split <;> simp


theorem run_withStatus (E : Env) (s : Request → Response → Int) (c : Client) (op : Op) :
    op.run (E.withStatus s) c = op.run E c := by
  cases op <;>
  simp only [Op.run, Client.SearchPhotos, Client.CuratedPhotos, Client.GetPhoto,
    Client.SearchVideo, Client.PopularVideo, Client.GetRandomPhoto, Client.GetRandomVideo,
    Client.requestDoWithAuth, NewRequest, Env.withStatus, Unmarshal] <;>
  (cases E.NewRequestErr _ _ <;> simp only []) <;>
  (cases E.Do _ <;> simp only []) <;>
  (cases Atoi E.intSize _ <;> simp only [])

theorem run_cases (E : Env) (c : Client) (op : Op) :
    (∃ msg, E.NewRequestErr "GET" (op.url E) = some msg
      ∧ op.run E c = ⟨c, [.NewRequest "GET" (op.url E)], .pair none (some (.request msg))⟩)
    ∨ (E.NewRequestErr "GET" (op.url E) = none
      ∧ ∃ msg, E.Do (authRequest c "GET" (op.url E)) = .error msg
      ∧ op.run E c = ⟨c, [.NewRequest "GET" (op.url E), .Do (authRequest c "GET" (op.url E))],
          .pair none (some (.transport msg))⟩)
    ∨ (E.NewRequestErr "GET" (op.url E) = none
      ∧ ∃ resp, E.Do (authRequest c "GET" (op.url E)) = .ok resp
      ∧ (op.run E c).c = counted E c resp
      ∧ (∃ ptr err, (op.run E c).ret = .pair ptr err)
      ∧ ((∃ msg, resp.Body.err = some msg ∧ (op.run E c).calls
            = [.NewRequest "GET" (op.url E), .Do (authRequest c "GET" (op.url E)), .ReadAll])
        ∨ (resp.Body.err = none ∧ (op.run E c).calls
            = [.NewRequest "GET" (op.url E), .Do (authRequest c "GET" (op.url E)), .ReadAll,
                .Unmarshal resp.Body.data]))) := by
  cases hnr : E.NewRequestErr "GET" (op.url E) with
  | some msg => exact Or.inl ⟨msg, rfl, run_request_error E c op msg hnr⟩
  | none =>
    cases hdo : E.Do (authRequest c "GET" (op.url E)) with
    | error msg => exact Or.inr (Or.inl ⟨rfl, msg, rfl, run_transport_error E c op msg hnr hdo⟩)
    | ok resp =>
      refine Or.inr (Or.inr ⟨rfl, resp, rfl, ?_⟩)
      cases hb : resp.Body.err with
      | some msg =>
        have h := run_read_error E c op resp msg hnr hdo hb
        rw [h]
        exact ⟨rfl, ⟨_, _, rfl⟩, Or.inl ⟨msg, rfl, rfl⟩⟩
      | none =>
        obtain ⟨h1, h2, h3⟩ := run_body_read E c op resp hnr hdo hb
        exact ⟨h1, h3, Or.inr ⟨rfl, h2⟩⟩

/-- A request that reached the transport is the one built from the URL of the
operation, and `http.NewRequest` had accepted that URL. -/
theorem run_do_mem (E : Env) (c : Client) (op : Op) (req : Request)
    (hcall : Call.Do req ∈ (op.run E c).calls) :
    E.NewRequestErr "GET" (op.url E) = none ∧ req = authRequest c "GET" (op.url E) := by
  rcases run_cases E c op with ⟨msg, _, h⟩ | ⟨hnr, msg, _, h⟩ | ⟨hnr, resp, _, _, _, h⟩
  · rw [h] at hcall; simp at hcall
  · rw [h] at hcall; simp at hcall; exact ⟨hnr, hcall⟩
  · rcases h with ⟨_, _, h⟩ | ⟨_, h⟩ <;>
    · rw [h] at hcall; simp at hcall; exact ⟨hnr, hcall⟩

theorem run_newRequest_mem (E : Env) (c : Client) (op : Op) (method url : String)
    (hcall : Call.NewRequest method url ∈ (op.run E c).calls) :
    method = "GET" ∧ url = op.url E := by
  rcases run_cases E c op with ⟨msg, _, h⟩ | ⟨hnr, msg, _, h⟩ | ⟨hnr, resp, _, _, _, h⟩
  · rw [h] at hcall; simpa using hcall
  · rw [h] at hcall; simpa using hcall
  · rcases h with ⟨_, _, h⟩ | ⟨_, h⟩ <;>
    · rw [h] at hcall; simpa using hcall

theorem run_calls_head (E : Env) (c : Client) (op : Op) :
    (op.run E c).calls.head? = some (.NewRequest "GET" (op.url E)) := by
  rcases run_cases E c op with ⟨msg, _, h⟩ | ⟨hnr, msg, _, h⟩ | ⟨hnr, resp, _, _, _, h⟩
  · rw [h]; rfl
  · rw [h]; rfl
  · rcases h with ⟨_, _, h⟩ | ⟨_, h⟩ <;>
    · rw [h]; rfl

/-- No run ends in a panic: every operation returns. -/
theorem run_returns (E : Env) (c : Client) (op : Op) :
    ∃ ptr err, (op.run E c).ret = .pair ptr err := by
  rcases run_cases E c op with ⟨msg, _, h⟩ | ⟨hnr, msg, _, h⟩ | ⟨hnr, resp, _, _, h, _⟩
  · rw [h]; exact ⟨_, _, rfl⟩
  · rw [h]; exact ⟨_, _, rfl⟩
  · exact h

theorem counted_Token (E : Env) (c : Client) (resp : Response) :
    (counted E c resp).Token = c.Token := by
  unfold counted
  split <;> rfl

theorem run_Token (E : Env) (c : Client) (op : Op) : (op.run E c).c.Token = c.Token := by
  rcases run_cases E c op with ⟨msg, _, h⟩ | ⟨hnr, msg, _, h⟩ | ⟨hnr, resp, _, h, _⟩
  · rw [h]
  · rw [h]
  · rw [h, counted_Token]

theorem int32_of_IsInt32 (n : Int) (h : IsInt32 n) : int32 n = n := by
  unfold IsInt32 at h
  unfold int32
  omega

theorem counted_ok (E : Env) (c : Client) (resp : Response) (n : Int)
    (hparse : Atoi E.intSize (resp.Header.Get "X-Ratelimit-Remaining") = .ok n) :
    (counted E c resp).RemainingTimes = int32 n := by
  unfold counted
  rw [hparse]

theorem counted_error (E : Env) (c : Client) (resp : Response) (e : NumError)
    (hparse : Atoi E.intSize (resp.Header.Get "X-Ratelimit-Remaining") = .error e) :
    counted E c resp = c := by
  unfold counted
  rw [hparse]

theorem Atoi_FormatInt_int32 (intSize : Nat) (n : Int) (hsize : 32 ≤ intSize) (hn : IsInt32 n) :
    Atoi intSize (FormatInt n) = .ok n := by
  have hpow : (2 : Int) ^ 31 ≤ 2 ^ (intSize - 1) :=
    pow_le_pow_right₀ (by norm_num) (by omega)
  unfold IsInt32 at hn
  apply Atoi_FormatInt
  · omega
  · omega

theorem requestDoWithAuth_do_mem (E : Env) (c : Client) (method url : String) (req : Request)
    (hcall : Call.Do req ∈ (Client.requestDoWithAuth E c method url).calls) :
    E.NewRequestErr (methodOrGET method) url = none ∧ req = authRequest c method url := by
  cases hnr : E.NewRequestErr (methodOrGET method) url with
  | some msg =>
    rw [requestDoWithAuth_request_error E c method url msg hnr] at hcall
    simp at hcall
  | none =>
    refine ⟨rfl, ?_⟩
    cases hdo : E.Do (authRequest c method url) with
    | error msg =>
      rw [requestDoWithAuth_transport_error E c method url msg hnr hdo] at hcall
      simpa using hcall
    | ok resp =>
      rw [requestDoWithAuth_response E c method url resp hnr hdo] at hcall
      simpa using hcall

theorem Get_of_lookup_none (h : Header) (key : String) (hk : h.lookup key = none) :
    Header.Get h key = "" := by
  unfold Header.Get
  rw [hk]

/-! ## The claims -/

/-- C1, as stated, fails: the header holds the decimal integer 4294967296, the
transport returns the response without error, and the counter is 0 afterwards,
not 4294967296. -/
theorem counter_wraps_beyond_int32 :
    (mockEnv (.ok (quotaResponse 200 "4294967296" ⟨"", none⟩)) [] [] 0).Do
        (authRequest (NewClient "token") "GET" PhotoApi)
      = .ok (quotaResponse 200 "4294967296" ⟨"", none⟩)
    ∧ (quotaResponse 200 "4294967296" ⟨"", none⟩).Header.Get "X-Ratelimit-Remaining"
      = FormatInt 4294967296
    ∧ Client.GetRemainingRequestInThisMonth
        (Client.requestDoWithAuth (mockEnv (.ok (quotaResponse 200 "4294967296" ⟨"", none⟩)) [] [] 0)
          (NewClient "token") "GET" PhotoApi).c = 0
    ∧ Client.GetRemainingRequestInThisMonth
        (Client.requestDoWithAuth (mockEnv (.ok (quotaResponse 200 "4294967296" ⟨"", none⟩)) [] [] 0)
          (NewClient "token") "GET" PhotoApi).c ≠ 4294967296 := by
  refine ⟨rfl, by decide, by decide, by decide⟩

/-- C1, amended: when the transport returns a response without error whose
`X-Ratelimit-Remaining` header is the decimal text of an integer `n` in the
range of `int32`, then after `requestDoWithAuth`, and after every fetch
operation that makes this request, `GetRemainingRequestInThisMonth` returns
`n`.  (Go type `int` has 32 bits or more.) -/
theorem counter_after_request (E : Env) (c : Client) (req : Request) (resp : Response)
    (n : Int) (hsize : 32 ≤ E.intSize)
    (hdo : E.Do req = .ok resp)
    (hhdr : resp.Header.Get "X-Ratelimit-Remaining" = FormatInt n)
    (hn : IsInt32 n) :
    (∀ method url, Call.Do req ∈ (Client.requestDoWithAuth E c method url).calls →
        Client.GetRemainingRequestInThisMonth (Client.requestDoWithAuth E c method url).c = n)
    ∧ (∀ op : Op, Call.Do req ∈ (op.run E c).calls →
        Client.GetRemainingRequestInThisMonth (op.run E c).c = n) := by
  have hparse : Atoi E.intSize (resp.Header.Get "X-Ratelimit-Remaining") = .ok n := by
    rw [hhdr]; exact Atoi_FormatInt_int32 _ _ hsize hn
  have hcount : (counted E c resp).RemainingTimes = n := by
    rw [counted_ok E c resp n hparse, int32_of_IsInt32 n hn]
  constructor
  · intro method url hcall
    obtain ⟨hnr, hreq⟩ := requestDoWithAuth_do_mem E c method url req hcall
    subst hreq
    rw [requestDoWithAuth_response E c method url resp hnr hdo]
    exact hcount
  · intro op hcall
    obtain ⟨hnr, hreq⟩ := run_do_mem E c op req hcall
    subst hreq
    rcases run_cases E c op with ⟨msg, h, _⟩ | ⟨_, msg, h, _⟩ | ⟨_, resp2, h, hc, _⟩
    · rw [hnr] at h; cases h
    · rw [hdo] at h; cases h
    · rw [hdo] at h
      cases h
      unfold Client.GetRemainingRequestInThisMonth
      rw [hc]
      exact hcount

/-- C1, amended, at a response with the header `42`. -/
theorem counter_after_request_witness :
    (mockEnv (.ok (quotaResponse 200 "42" ⟨"", none⟩)) [] [] 0).Do
        (authRequest (NewClient "token") "GET" PhotoApi)
      = .ok (quotaResponse 200 "42" ⟨"", none⟩)
    ∧ (quotaResponse 200 "42" ⟨"", none⟩).Header.Get "X-Ratelimit-Remaining" = FormatInt 42
    ∧ IsInt32 42
    ∧ Client.GetRemainingRequestInThisMonth
        (Client.requestDoWithAuth (mockEnv (.ok (quotaResponse 200 "42" ⟨"", none⟩)) [] [] 0)
          (NewClient "token") "GET" PhotoApi).c = 42 :=
  ⟨rfl, by decide, by decide,
    (counter_after_request (mockEnv (.ok (quotaResponse 200 "42" ⟨"", none⟩)) [] [] 0)
      (NewClient "token") (authRequest (NewClient "token") "GET" PhotoApi)
      (quotaResponse 200 "42" ⟨"", none⟩) 42 (by decide) rfl (by decide) (by decide)).1
      "GET" PhotoApi (by decide)⟩

/-- C2: when the transport returns a response without error whose
`X-Ratelimit-Remaining` header is absent or is not read as an integer by
`strconv.Atoi`, `requestDoWithAuth` returns that response with a nil error and
the counter keeps its value, which is 0 on a client fresh from `NewClient`. -/
theorem counter_kept_without_quota (E : Env) (c : Client) (method url : String) (req : Request)
    (resp : Response)
    (hcall : Call.Do req ∈ (Client.requestDoWithAuth E c method url).calls)
    (hdo : E.Do req = .ok resp)
    (hhdr : resp.Header.lookup "X-Ratelimit-Remaining" = none
      ∨ ∃ e, Atoi E.intSize (resp.Header.Get "X-Ratelimit-Remaining") = .error e) :
    (Client.requestDoWithAuth E c method url).ret = .pair (some resp) none
    ∧ Client.GetRemainingRequestInThisMonth (Client.requestDoWithAuth E c method url).c
        = Client.GetRemainingRequestInThisMonth c
    ∧ (Client.requestDoWithAuth E c method url).c = c
    ∧ ∀ token, c = NewClient token →
        Client.GetRemainingRequestInThisMonth (Client.requestDoWithAuth E c method url).c = 0 := by
  obtain ⟨hnr, hreq⟩ := requestDoWithAuth_do_mem E c method url req hcall
  subst hreq
  have herr : ∃ e, Atoi E.intSize (resp.Header.Get "X-Ratelimit-Remaining") = .error e := by
    rcases hhdr with h | h
    · rw [Get_of_lookup_none _ _ h]
      exact ⟨.ErrSyntax, rfl⟩
    · exact h
  obtain ⟨e, he⟩ := herr
  rw [requestDoWithAuth_response E c method url resp hnr hdo, counted_error E c resp e he]
  refine ⟨rfl, rfl, rfl, ?_⟩
  intro token ht
  rw [ht]
  rfl

/-- C2 at a response without headers, on a fresh client. -/
theorem counter_kept_without_quota_witness :
    (⟨200, [], ⟨"", none⟩⟩ : Response).Header.lookup "X-Ratelimit-Remaining" = none
    ∧ (Client.requestDoWithAuth (mockEnv (.ok ⟨200, [], ⟨"", none⟩⟩) [] [] 0)
        (NewClient "token") "GET" PhotoApi).ret = .pair (some ⟨200, [], ⟨"", none⟩⟩) none
    ∧ Client.GetRemainingRequestInThisMonth
        (Client.requestDoWithAuth (mockEnv (.ok ⟨200, [], ⟨"", none⟩⟩) [] [] 0)
          (NewClient "token") "GET" PhotoApi).c = 0 :=
  ⟨rfl,
    (counter_kept_without_quota (mockEnv (.ok ⟨200, [], ⟨"", none⟩⟩) [] [] 0)
      (NewClient "token") "GET" PhotoApi (authRequest (NewClient "token") "GET" PhotoApi)
      ⟨200, [], ⟨"", none⟩⟩ (by decide) rfl (Or.inl rfl)).1,
    (counter_kept_without_quota (mockEnv (.ok ⟨200, [], ⟨"", none⟩⟩) [] [] 0)
      (NewClient "token") "GET" PhotoApi (authRequest (NewClient "token") "GET" PhotoApi)
      ⟨200, [], ⟨"", none⟩⟩ (by decide) rfl (Or.inl rfl)).2.2.2 "token" rfl⟩

theorem GetRandomPhoto_ret (E : Env) (c : Client) :
    (Client.GetRandomPhoto E c).ret
      = match (Client.CuratedPhotos E c 1 (Int31n 1001 E.Int31)).ret with
        | .panic => .panic
        | .pair _ (some err) => .pair none (some err)
        | .pair none none => .panic
        | .pair (some result) none =>
          if result.Photos.length = 1 then .pair result.Photos.head? none else .pair none none := by
  simp only [Client.GetRandomPhoto]
  generalize (Client.CuratedPhotos E c 1 (Int31n 1001 E.Int31)).ret = r
  rcases r with ⟨_ | result, _ | e⟩ | _ <;> try rfl
  simp only []
  split <;> rfl

theorem GetRandomVideo_ret (E : Env) (c : Client) :
    (Client.GetRandomVideo E c).ret
      = match (Client.PopularVideo E c 1 (Int31n 1001 E.Int31)).ret with
        | .panic => .panic
        | .pair _ (some err) => .pair none (some err)
        | .pair none none => .panic
        | .pair (some result) none =>
          if result.Videos.length = 1 then .pair result.Videos.head? none else .pair none none := by
  simp only [Client.GetRandomVideo]
  generalize (Client.PopularVideo E c 1 (Int31n 1001 E.Int31)).ret = r
  rcases r with ⟨_ | result, _ | e⟩ | _ <;> try rfl
  simp only []
  split <;> rfl

/-- C3: `GetRandomPhoto` over `CuratedPhotos` and `GetRandomVideo` over
`PopularVideo`.  When the listing returns no error, the pick returns the only
element with a nil error if the listing has exactly one element, and nil with
a nil error otherwise; when the listing returns an error, the pick returns nil
and that error.  The pick is settled by what the listing returned, whatever
page was drawn, and it never panics. -/
theorem random_pick_of_listing (E : Env) (c : Client) :
    (∀ result photo,
        (Client.CuratedPhotos E c 1 (Int31n 1001 E.Int31)).ret = .pair (some result) none →
        result.Photos = [photo] →
        (Client.GetRandomPhoto E c).ret = .pair (some photo) none)
    ∧ (∀ result,
        (Client.CuratedPhotos E c 1 (Int31n 1001 E.Int31)).ret = .pair (some result) none →
        result.Photos.length ≠ 1 →
        (Client.GetRandomPhoto E c).ret = .pair none none)
    ∧ (∀ ptr e,
        (Client.CuratedPhotos E c 1 (Int31n 1001 E.Int31)).ret = .pair ptr (some e) →
        (Client.GetRandomPhoto E c).ret = .pair none (some e))
    ∧ (∀ result video,
        (Client.PopularVideo E c 1 (Int31n 1001 E.Int31)).ret = .pair (some result) none →
        result.Videos = [video] →
        (Client.GetRandomVideo E c).ret = .pair (some video) none)
    ∧ (∀ result,
        (Client.PopularVideo E c 1 (Int31n 1001 E.Int31)).ret = .pair (some result) none →
        result.Videos.length ≠ 1 →
        (Client.GetRandomVideo E c).ret = .pair none none)
    ∧ (∀ ptr e,
        (Client.PopularVideo E c 1 (Int31n 1001 E.Int31)).ret = .pair ptr (some e) →
        (Client.GetRandomVideo E c).ret = .pair none (some e))
    ∧ (∀ (E2 : Env) (c2 : Client),
        (Client.CuratedPhotos E c 1 (Int31n 1001 E.Int31)).ret
          = (Client.CuratedPhotos E2 c2 1 (Int31n 1001 E2.Int31)).ret →
        (Client.GetRandomPhoto E c).ret = (Client.GetRandomPhoto E2 c2).ret)
    ∧ (∀ (E2 : Env) (c2 : Client),
        (Client.PopularVideo E c 1 (Int31n 1001 E.Int31)).ret
          = (Client.PopularVideo E2 c2 1 (Int31n 1001 E2.Int31)).ret →
        (Client.GetRandomVideo E c).ret = (Client.GetRandomVideo E2 c2).ret)
    ∧ (Client.GetRandomPhoto E c).ret ≠ .panic
    ∧ (Client.GetRandomVideo E c).ret ≠ .panic := by
  refine ⟨?_, ?_, ?_, ?_, ?_, ?_, ?_, ?_, ?_, ?_⟩
  · intro result photo h hp
    simp [Client.GetRandomPhoto, h, hp]
  · intro result h hp
    simp [Client.GetRandomPhoto, h, hp]
  · intro ptr e h
    simp [Client.GetRandomPhoto, h]
  · intro result video h hp
    simp [Client.GetRandomVideo, h, hp]
  · intro result h hp
    simp [Client.GetRandomVideo, h, hp]
  · intro ptr e h
    simp [Client.GetRandomVideo, h]
  · intro E2 c2 h
    rw [GetRandomPhoto_ret, GetRandomPhoto_ret, h]
  · intro E2 c2 h
    rw [GetRandomVideo_ret, GetRandomVideo_ret, h]
  · obtain ⟨ptr, err, h⟩ := run_returns E c .GetRandomPhoto
    intro hp
    simp [Op.run, Outcome.map, hp, Ret.map] at h
  · obtain ⟨ptr, err, h⟩ := run_returns E c .GetRandomVideo
    intro hp
    simp [Op.run, Outcome.map, hp, Ret.map] at h

/-- C3 on a mock backend whose listing holds one photo. -/
theorem random_pick_of_listing_witness :
    (Client.CuratedPhotos (mockEnv (.ok ⟨200, [], ⟨"\x7b\x7d", none⟩⟩) [samplePhoto] [] 5)
        (NewClient "token") 1 5).ret
      = .pair (some { CuratedResult.zero with Photos := [samplePhoto] }) none
    ∧ (Client.GetRandomPhoto (mockEnv (.ok ⟨200, [], ⟨"\x7b\x7d", none⟩⟩) [samplePhoto] [] 5)
        (NewClient "token")).ret = .pair (some samplePhoto) none :=
  ⟨by decide,
    (random_pick_of_listing (mockEnv (.ok ⟨200, [], ⟨"\x7b\x7d", none⟩⟩) [samplePhoto] [] 5)
      (NewClient "token")).1 { CuratedResult.zero with Photos := [samplePhoto] } samplePhoto
      (by decide) rfl⟩

/-- C4, as stated, fails: for the query `a&page=7` with `perPage = 1` and
`page = 2`, the query string of the URL that `SearchPhotos` requests reads as
four parameters, `query = a`, `page = 7`, `per_page = 1` and `page = 2`, not as
`query = a&page=7`, `per_page = 1`, `page = 2`.  The characters `#`, `;`, `+`
and `%` in the query break the reading as well. -/
theorem search_query_not_escaped :
    (Client.SearchPhotos (mockEnv (.ok ⟨200, [], ⟨"", none⟩⟩) [] [] 0) (NewClient "token")
        "a&page=7" 1 2).calls.head?
      = some (.NewRequest "GET" "https://api.pexels.com/v1/search?query=a&page=7&per_page=1&page=2")
    ∧ (Client.SearchPhotos (mockEnv (.ok ⟨200, [], ⟨"", none⟩⟩) [] [] 0) (NewClient "token")
        "a&page=7" 1 2).requestedQuery
      = some ([("query", "a"), ("page", "7"), ("per_page", "1"), ("page", "2")], false)
    ∧ (Client.SearchPhotos (mockEnv (.ok ⟨200, [], ⟨"", none⟩⟩) [] [] 0) (NewClient "token")
        "a&page=7" 1 2).requestedQuery
      ≠ some ([("query", "a&page=7"), ("per_page", FormatInt 1), ("page", FormatInt 2)], false)
    ∧ (Client.SearchPhotos (mockEnv (.ok ⟨200, [], ⟨"", none⟩⟩) [] [] 0) (NewClient "token")
        "a#b" 1 2).requestedQuery
      ≠ some ([("query", "a#b"), ("per_page", FormatInt 1), ("page", FormatInt 2)], false)
    ∧ (Client.SearchPhotos (mockEnv (.ok ⟨200, [], ⟨"", none⟩⟩) [] [] 0) (NewClient "token")
        "a;b" 1 2).requestedQuery
      ≠ some ([("query", "a;b"), ("per_page", FormatInt 1), ("page", FormatInt 2)], false)
    ∧ (Client.SearchPhotos (mockEnv (.ok ⟨200, [], ⟨"", none⟩⟩) [] [] 0) (NewClient "token")
        "a+b" 1 2).requestedQuery
      ≠ some ([("query", "a+b"), ("per_page", FormatInt 1), ("page", FormatInt 2)], false)
    ∧ (Client.SearchPhotos (mockEnv (.ok ⟨200, [], ⟨"", none⟩⟩) [] [] 0) (NewClient "token")
        "a%41" 1 2).requestedQuery
      ≠ some ([("query", "a%41"), ("per_page", FormatInt 1), ("page", FormatInt 2)], false) := by
  refine ⟨by decide, by decide, by decide, by decide, by decide, by decide, by decide⟩

/-- C4, amended: for every query text without the characters `&`, `#`, `;`,
`+` and `%`, and all `int32` values `perPage` and `page`, the URL that
`SearchPhotos` requests has a query string that reads as exactly the three
parameters `query`, `per_page` and `page`, the numbers in decimal, and nothing
else; the same holds for `SearchVideo`, and the two URLs start with the photo
and the video base URL. -/
theorem search_query_encodes_parameters (E : Env) (c : Client) (query : String)
    (perPage page : Int)
    (hq : ∀ ch ∈ query.toList, ch ≠ '&' ∧ ch ≠ '#' ∧ ch ≠ ';' ∧ ch ≠ '+' ∧ ch ≠ '%')
    (hperPage : IsInt32 perPage) (hpage : IsInt32 page) :
    (Client.SearchPhotos E c query perPage page).requestedQuery
      = some ([("query", query), ("per_page", FormatInt perPage), ("page", FormatInt page)], false)
    ∧ (Client.SearchVideo E c query perPage page).requestedQuery
      = some ([("query", query), ("per_page", FormatInt perPage), ("page", FormatInt page)], false)
    ∧ Atoi 32 (FormatInt perPage) = .ok perPage ∧ Atoi 32 (FormatInt page) = .ok page
    ∧ (∃ rest, (Client.SearchPhotos E c query perPage page).calls.head?
        = some (.NewRequest "GET" (PhotoApi ++ rest)))
    ∧ (∃ rest, (Client.SearchVideo E c query perPage page).calls.head?
        = some (.NewRequest "GET" (VideoApi ++ rest)))
    ∧ (∀ req, Call.Do req ∈ (Client.SearchPhotos E c query perPage page).calls →
        (Client.SearchPhotos E c query perPage page).calls.head?
          = some (.NewRequest "GET" req.URL))
    ∧ (∀ req, Call.Do req ∈ (Client.SearchVideo E c query perPage page).calls →
        (Client.SearchVideo E c query perPage page).calls.head?
          = some (.NewRequest "GET" req.URL)) := by
  have hphoto := run_calls_head E c (.SearchPhotos query perPage page)
  have hvideo := run_calls_head E c (.SearchVideo query perPage page)
  have hphoto2 : (Client.SearchPhotos E c query perPage page).calls.head?
      = some (.NewRequest "GET" ((Op.SearchPhotos query perPage page).url E)) := hphoto
  have hvideo2 : (Client.SearchVideo E c query perPage page).calls.head?
      = some (.NewRequest "GET" ((Op.SearchVideo query perPage page).url E)) := hvideo
  refine ⟨?_, ?_, Atoi_FormatInt_int32 32 perPage (by omega) hperPage,
    Atoi_FormatInt_int32 32 page (by omega) hpage, ?_, ?_, ?_, ?_⟩
  · unfold Outcome.requestedQuery
    rw [hphoto2]
    exact congrArg some (search_url_query PhotoApi query perPage page (by decide) hq)
  · unfold Outcome.requestedQuery
    rw [hvideo2]
    exact congrArg some (search_url_query VideoApi query perPage page (by decide) hq)
  · refine ⟨"/search?query=" ++ query ++ "&per_page=" ++ FormatInt perPage ++ "&page="
      ++ FormatInt page, ?_⟩
    rw [hphoto2]
    simp [Op.url, String.append_assoc]
  · refine ⟨"/search?query=" ++ query ++ "&per_page=" ++ FormatInt perPage ++ "&page="
      ++ FormatInt page, ?_⟩
    rw [hvideo2]
    simp [Op.url, String.append_assoc]
  · intro req hreq
    rw [hphoto2, (run_do_mem E c (.SearchPhotos query perPage page) req hreq).2]
    rfl
  · intro req hreq
    rw [hvideo2, (run_do_mem E c (.SearchVideo query perPage page) req hreq).2]
    rfl

/-- C4, amended, at the search of the demonstration program: `waves`, 80
results per page, page 1. -/
theorem search_query_encodes_parameters_witness :
    (∀ ch ∈ "waves".toList, ch ≠ '&' ∧ ch ≠ '#' ∧ ch ≠ ';' ∧ ch ≠ '+' ∧ ch ≠ '%')
    ∧ IsInt32 80 ∧ IsInt32 1
    ∧ (Client.SearchPhotos (mockEnv (.ok ⟨200, [], ⟨"", none⟩⟩) [] [] 0)
        (NewClient "token") "waves" 80 1).requestedQuery
      = some ([("query", "waves"), ("per_page", "80"), ("page", "1")], false) :=
  ⟨by decide, by decide, by decide,
    (search_query_encodes_parameters
      (mockEnv (.ok ⟨200, [], ⟨"", none⟩⟩) [] [] 0) (NewClient "token") "waves" 80 1
      (by decide) (by decide) (by decide)).1⟩

/-- C5: for every fetch operation, when the transport returns a response, its
body is read without error and is not JSON, the operation returns the decode
error of `json.Unmarshal` together with a result that is nil (the two random
picks) or the zero value of the record (the five others). -/
theorem decode_failure_propagates (E : Env) (c : Client) (op : Op) (req : Request)
    (resp : Response) (msg : String)
    (hcall : Call.Do req ∈ (op.run E c).calls)
    (hdo : E.Do req = .ok resp)
    (hread : resp.Body.err = none)
    (hjson : E.checkValid resp.Body.data = some msg) :
    (op.run E c).ret = .pair op.untouched (some (.invalidJSON msg))
    ∧ (op.untouched = none
      ∨ op.untouched = some (.SearchResult ⟨0, 0, 0, "", []⟩)
      ∨ op.untouched = some (.CuratedResult ⟨0, 0, "", []⟩)
      ∨ op.untouched = some (.Photo ⟨0, 0, 0, "", "", "", ⟨"", "", "", "", "", "", "", "", ""⟩⟩)
      ∨ op.untouched = some (.VideoSearchResult ⟨0, 0, 0, "", []⟩)
      ∨ op.untouched = some (.PopularVideo ⟨0, 0, 0, "", []⟩)) := by
  obtain ⟨hnr, hreq⟩ := run_do_mem E c op req hcall
  subst hreq
  rw [run_invalid_json E c op resp msg hnr hdo hread hjson]
  refine ⟨rfl, ?_⟩
  cases op <;> simp [Op.untouched, SearchResult.zero, CuratedResult.zero, Photo.zero,
    PhotoSource.zero, VideoSearchResult.zero, PopularVideo.zero]

/-- C5 at `GetPhoto 7` on a mock backend that answers with a page of HTML. -/
theorem decode_failure_propagates_witness :
    Call.Do (authRequest (NewClient "token") "GET" "https://api.pexels.com/v1/photos/7")
      ∈ ((Op.GetPhoto 7).run (mockEnv (.ok ⟨200, [], ⟨"<html>", none⟩⟩) [samplePhoto] [] 0)
          (NewClient "token")).calls
    ∧ (mockEnv (.ok ⟨200, [], ⟨"<html>", none⟩⟩) [samplePhoto] [] 0).checkValid "<html>"
      = some "invalid character"
    ∧ ((Op.GetPhoto 7).run (mockEnv (.ok ⟨200, [], ⟨"<html>", none⟩⟩) [samplePhoto] [] 0)
        (NewClient "token")).ret
      = .pair (some (.Photo Photo.zero)) (some (.invalidJSON "invalid character")) :=
  ⟨by decide, by decide,
    (decode_failure_propagates
      (mockEnv (.ok ⟨200, [], ⟨"<html>", none⟩⟩) [samplePhoto] [] 0) (NewClient "token")
      (.GetPhoto 7) (authRequest (NewClient "token") "GET" "https://api.pexels.com/v1/photos/7")
      ⟨200, [], ⟨"<html>", none⟩⟩ "invalid character" (by decide) rfl rfl (by decide)).1⟩

/-- C6: for every fetch operation, when `http.NewRequest` or the call of the
transport fails with error `e`, the operation returns nil and `e`, no body is
read, nothing is decoded, and the client, its counter included, is as before. -/
theorem transport_failure_propagates (E : Env) (c : Client) (op : Op) (e : Error)
    (hfail : (∃ method url msg, Call.NewRequest method url ∈ (op.run E c).calls
          ∧ E.NewRequestErr method url = some msg ∧ e = .request msg)
      ∨ (∃ req msg, Call.Do req ∈ (op.run E c).calls
          ∧ E.Do req = .error msg ∧ e = .transport msg)) :
    (op.run E c).ret = .pair none (some e)
    ∧ Call.ReadAll ∉ (op.run E c).calls
    ∧ (∀ data, Call.Unmarshal data ∉ (op.run E c).calls)
    ∧ Client.GetRemainingRequestInThisMonth (op.run E c).c
        = Client.GetRemainingRequestInThisMonth c
    ∧ (op.run E c).c = c := by
  rcases hfail with ⟨method, url, msg, hcall, herr, he⟩ | ⟨req, msg, hcall, herr, he⟩
  · obtain ⟨hm, hu⟩ := run_newRequest_mem E c op method url hcall
    subst hm hu he
    rw [run_request_error E c op msg herr]
    simp
  · obtain ⟨hnr, hreq⟩ := run_do_mem E c op req hcall
    subst hreq he
    rw [run_transport_error E c op msg hnr herr]
    simp

/-- C6 at the search of the demonstration program, on a backend that refuses
the connection. -/
theorem transport_failure_propagates_witness :
    Call.Do (authRequest (NewClient "token") "GET"
        "https://api.pexels.com/v1/search?query=waves&per_page=80&page=1")
      ∈ ((Op.SearchPhotos "waves" 80 1).run (mockEnv (.error "connection refused") [] [] 0)
          (NewClient "token")).calls
    ∧ ((Op.SearchPhotos "waves" 80 1).run (mockEnv (.error "connection refused") [] [] 0)
        (NewClient "token")).ret = .pair none (some (.transport "connection refused"))
    ∧ Call.ReadAll ∉ ((Op.SearchPhotos "waves" 80 1).run
        (mockEnv (.error "connection refused") [] [] 0) (NewClient "token")).calls :=
  ⟨by decide,
    (transport_failure_propagates (mockEnv (.error "connection refused") [] [] 0)
      (NewClient "token") (.SearchPhotos "waves" 80 1) (.transport "connection refused")
      (Or.inr ⟨authRequest (NewClient "token") "GET"
        "https://api.pexels.com/v1/search?query=waves&per_page=80&page=1", "connection refused",
        by decide, rfl, rfl⟩)).1,
    (transport_failure_propagates (mockEnv (.error "connection refused") [] [] 0)
      (NewClient "token") (.SearchPhotos "waves" 80 1) (.transport "connection refused")
      (Or.inr ⟨authRequest (NewClient "token") "GET"
        "https://api.pexels.com/v1/search?query=waves&per_page=80&page=1", "connection refused",
        by decide, rfl, rfl⟩)).2.1⟩

/-- C7: the status code plays no part.  For every fetch operation, replacing
the status code of every response by any other, headers and body kept, gives
the same result, the same error, the same calls and the same client state. -/
theorem status_code_ignored (E : Env) (s : Request → Response → Int) (c : Client) (op : Op) :
    (op.run (E.withStatus s) c).ret = (op.run E c).ret
    ∧ (op.run (E.withStatus s) c).c = (op.run E c).c
    ∧ (op.run (E.withStatus s) c).calls = (op.run E c).calls
    ∧ (∀ req resp, E.Do req = .ok resp →
        (E.withStatus s).Do req = .ok ⟨s req resp, resp.Header, resp.Body⟩) := by
  rw [run_withStatus]
  refine ⟨rfl, rfl, rfl, ?_⟩
  intro req resp h
  simp [Env.withStatus, h]

theorem GetRandomPhoto_run (E : Env) (c : Client) :
    (Client.GetRandomPhoto E c).calls = (Client.CuratedPhotos E c 1 (Int31n 1001 E.Int31)).calls
    ∧ (Client.GetRandomPhoto E c).c = (Client.CuratedPhotos E c 1 (Int31n 1001 E.Int31)).c := by
  simp only [Client.GetRandomPhoto]
  generalize Client.CuratedPhotos E c 1 (Int31n 1001 E.Int31) = r
  rcases r with ⟨c2, calls, ⟨_ | result, _ | e⟩ | _⟩ <;> try exact ⟨rfl, rfl⟩
  simp only []
  split <;> exact ⟨rfl, rfl⟩

theorem GetRandomVideo_run (E : Env) (c : Client) :
    (Client.GetRandomVideo E c).calls = (Client.PopularVideo E c 1 (Int31n 1001 E.Int31)).calls
    ∧ (Client.GetRandomVideo E c).c = (Client.PopularVideo E c 1 (Int31n 1001 E.Int31)).c := by
  simp only [Client.GetRandomVideo]
  generalize Client.PopularVideo E c 1 (Int31n 1001 E.Int31) = r
  rcases r with ⟨c2, calls, ⟨_ | result, _ | e⟩ | _⟩ <;> try exact ⟨rfl, rfl⟩
  simp only []
  split <;> exact ⟨rfl, rfl⟩

theorem Int31n_1001 (v : Nat) : Int31n 1001 v = ((v % 1001 : Nat) : Int) := by
  unfold Int31n
  rw [if_neg (by decide)]

/-- C8: for every number of the random generator, `GetRandomPhoto` runs
`CuratedPhotos` and `GetRandomVideo` runs `PopularVideo` with one result per
page and a page `p` with `0 ≤ p ≤ 1000`; the URL requested is the base URL
followed by `/curated?per_page=1&page=p`, respectively
`/popular?per_page=1&page=p`; the pages 0 and 1000 are both drawn by some
number. -/
theorem random_page_request (E : Env) (c : Client) :
    0 ≤ Int31n 1001 E.Int31 ∧ Int31n 1001 E.Int31 ≤ 1000
    ∧ (Client.GetRandomPhoto E c).calls
        = (Client.CuratedPhotos E c 1 (Int31n 1001 E.Int31)).calls
    ∧ (Client.GetRandomPhoto E c).c = (Client.CuratedPhotos E c 1 (Int31n 1001 E.Int31)).c
    ∧ (Client.GetRandomPhoto E c).calls.head?
        = some (.NewRequest "GET" ("https://api.pexels.com/v1/curated?per_page=1&page="
            ++ FormatInt (Int31n 1001 E.Int31)))
    ∧ (Client.GetRandomVideo E c).calls
        = (Client.PopularVideo E c 1 (Int31n 1001 E.Int31)).calls
    ∧ (Client.GetRandomVideo E c).c = (Client.PopularVideo E c 1 (Int31n 1001 E.Int31)).c
    ∧ (Client.GetRandomVideo E c).calls.head?
        = some (.NewRequest "GET" ("https://api.pexels.com/videos/popular?per_page=1&page="
            ++ FormatInt (Int31n 1001 E.Int31)))
    ∧ (∀ req, Call.Do req ∈ (Client.GetRandomPhoto E c).calls →
        req.URL = "https://api.pexels.com/v1/curated?per_page=1&page="
            ++ FormatInt (Int31n 1001 E.Int31))
    ∧ (∀ req, Call.Do req ∈ (Client.GetRandomVideo E c).calls →
        req.URL = "https://api.pexels.com/videos/popular?per_page=1&page="
            ++ FormatInt (Int31n 1001 E.Int31))
    ∧ (∃ v, v < 2 ^ 31 ∧ Int31n 1001 v = 0) ∧ (∃ v, v < 2 ^ 31 ∧ Int31n 1001 v = 1000) := by
  have hphoto : (Op.GetRandomPhoto).url E
      = "https://api.pexels.com/v1/curated?per_page=1&page="
        ++ FormatInt (Int31n 1001 E.Int31) := by
    simp only [Op.url, PhotoApi]
    rfl
  have hvideo : (Op.GetRandomVideo).url E
      = "https://api.pexels.com/videos/popular?per_page=1&page="
        ++ FormatInt (Int31n 1001 E.Int31) := by
    simp only [Op.url, VideoApi]
    rfl
  refine ⟨?_, ?_, ?_, ?_, ?_, ?_, ?_, ?_, ?_, ?_, ⟨0, by decide, by decide⟩,
    ⟨1000, by decide, by decide⟩⟩
  · rw [Int31n_1001]; omega
  · rw [Int31n_1001]; omega
  · exact (GetRandomPhoto_run E c).1
  · exact (GetRandomPhoto_run E c).2
  · rw [← hphoto]; exact run_calls_head E c .GetRandomPhoto
  · exact (GetRandomVideo_run E c).1
  · exact (GetRandomVideo_run E c).2
  · rw [← hvideo]; exact run_calls_head E c .GetRandomVideo
  · intro req h
    have := (run_do_mem E c .GetRandomPhoto req h).2
    rw [this, hphoto]; rfl
  · intro req h
    have := (run_do_mem E c .GetRandomVideo req h).2
    rw [this, hvideo]; rfl

theorem requestDoWithAuth_Token (E : Env) (c : Client) (method url : String) :
    (Client.requestDoWithAuth E c method url).c.Token = c.Token := by
  cases hnr : E.NewRequestErr (methodOrGET method) url with
  | some msg => rw [requestDoWithAuth_request_error E c method url msg hnr]
  | none =>
    cases hdo : E.Do (authRequest c method url) with
    | error msg => rw [requestDoWithAuth_transport_error E c method url msg hnr hdo]
    | ok resp => rw [requestDoWithAuth_response E c method url resp hnr hdo, counted_Token]

/-- C9: `NewClient` takes any token and stores it as it is; every request that
`requestDoWithAuth` hands to the transport has the method that
`http.NewRequest` gives it, which is the method passed or `GET` for the empty
method, and so `GET` in all seven fetch operations, which pass `GET`; it has
exactly one header, `Authorization`, with the stored token as its single
value, unchanged; no operation changes the stored token. -/
theorem token_sent_as_is (E : Env) (token : String) (c : Client) (op : Op)
    (method url : String) :
    (NewClient token).Token = token
    ∧ (∀ req, Call.Do req ∈ (Client.requestDoWithAuth E c method url).calls →
        req.Method = (if method = "" then "GET" else method)
        ∧ (method = "GET" → req.Method = "GET")
        ∧ req.URL = url ∧ req.Header = [("Authorization", [c.Token])]
        ∧ req.Header.Get "Authorization" = c.Token)
    ∧ (∀ req, Call.Do req ∈ (op.run E c).calls →
        req.Method = "GET" ∧ req.Header = [("Authorization", [c.Token])]
        ∧ req.Header.Get "Authorization" = c.Token)
    ∧ (∀ req, Call.Do req ∈ (op.run E (NewClient token)).calls →
        req.Method = "GET" ∧ req.Header = [("Authorization", [token])])
    ∧ (∀ m u, Call.NewRequest m u ∈ (op.run E c).calls → m = "GET")
    ∧ (Client.requestDoWithAuth E c method url).c.Token = c.Token
    ∧ (op.run E c).c.Token = c.Token := by
  have hget : ∀ t : String, Header.Get [("Authorization", [t])] "Authorization" = t := by
    intro t
    simp [Header.Get, List.lookup]
  refine ⟨rfl, ?_, ?_, ?_, ?_, requestDoWithAuth_Token E c method url, run_Token E c op⟩
  · intro req h
    rw [(requestDoWithAuth_do_mem E c method url req h).2]
    refine ⟨rfl, ?_, rfl, rfl, hget _⟩
    intro hm
    rw [hm]
    rfl
  · intro req h
    rw [(run_do_mem E c op req h).2]
    exact ⟨rfl, rfl, hget _⟩
  · intro req h
    rw [(run_do_mem E (NewClient token) op req h).2]
    exact ⟨rfl, rfl⟩
  · intro m u h
    exact (run_newRequest_mem E c op m u h).1

/-- C9 on a mock backend: the search of the demonstration program sends a `GET`
with the token as the only header, and `requestDoWithAuth` with the empty
method sends a `GET` as well. -/
theorem token_sent_as_is_witness :
    Call.Do ⟨"GET", "https://api.pexels.com/v1/search?query=waves&per_page=80&page=1",
        [("Authorization", ["secret"])]⟩
      ∈ ((Op.SearchPhotos "waves" 80 1).run (mockEnv (.ok ⟨200, [], ⟨"", none⟩⟩) [] [] 0)
          (NewClient "secret")).calls
    ∧ Call.Do ⟨"GET", PhotoApi, [("Authorization", ["secret"])]⟩
      ∈ (Client.requestDoWithAuth (mockEnv (.ok ⟨200, [], ⟨"", none⟩⟩) [] [] 0)
          (NewClient "secret") "" PhotoApi).calls
    ∧ (⟨"GET", "https://api.pexels.com/v1/search?query=waves&per_page=80&page=1",
        [("Authorization", ["secret"])]⟩ : Request).Header.Get "Authorization" = "secret"
    ∧ ((Op.SearchPhotos "waves" 80 1).run (mockEnv (.ok ⟨200, [], ⟨"", none⟩⟩) [] [] 0)
        (NewClient "secret")).c.Token = "secret" :=
  ⟨by decide, by decide,
    ((token_sent_as_is (mockEnv (.ok ⟨200, [], ⟨"", none⟩⟩) [] [] 0) "secret"
      (NewClient "secret") (.SearchPhotos "waves" 80 1) "" PhotoApi).2.2.1
      ⟨"GET", "https://api.pexels.com/v1/search?query=waves&per_page=80&page=1",
        [("Authorization", ["secret"])]⟩ (by decide)).2.2,
    (token_sent_as_is (mockEnv (.ok ⟨200, [], ⟨"", none⟩⟩) [] [] 0) "secret"
      (NewClient "secret") (.SearchPhotos "waves" 80 1) "" PhotoApi).2.2.2.2.2.2⟩

/-- C10: for every fetch operation, when the transport returns a response whose
`X-Ratelimit-Remaining` header is read by `strconv.Atoi` as an integer `n` in
the range of `int32`, the counter is `n` after the operation: the client is
left as `requestDoWithAuth` left it, also when reading the body fails or the
body is not JSON and the operation returns that error. -/
theorem counter_set_before_decoding (E : Env) (c : Client) (op : Op) (req : Request)
    (resp : Response) (n : Int)
    (hcall : Call.Do req ∈ (op.run E c).calls)
    (hdo : E.Do req = .ok resp)
    (hparse : Atoi E.intSize (resp.Header.Get "X-Ratelimit-Remaining") = .ok n)
    (hn : IsInt32 n) :
    Client.GetRemainingRequestInThisMonth (op.run E c).c = n
    ∧ (op.run E c).c = (Client.requestDoWithAuth E c "GET" req.URL).c
    ∧ (∀ msg, resp.Body.err = some msg → (op.run E c).ret = .pair none (some (.read msg)))
    ∧ (∀ msg, resp.Body.err = none → E.checkValid resp.Body.data = some msg →
        (op.run E c).ret = .pair op.untouched (some (.invalidJSON msg))) := by
  obtain ⟨hnr, hreq⟩ := run_do_mem E c op req hcall
  subst hreq
  have hcount : (counted E c resp).RemainingTimes = n := by
    rw [counted_ok E c resp n hparse, int32_of_IsInt32 n hn]
  have hc : (op.run E c).c = counted E c resp := by
    rcases run_cases E c op with ⟨msg, h, _⟩ | ⟨_, msg, h, _⟩ | ⟨_, resp2, h, hc, _⟩
    · rw [hnr] at h; cases h
    · rw [hdo] at h; cases h
    · rw [hdo] at h; cases h; exact hc
  refine ⟨?_, ?_, ?_, ?_⟩
  · unfold Client.GetRemainingRequestInThisMonth
    rw [hc]; exact hcount
  · rw [hc]
    show _ = (Client.requestDoWithAuth E c "GET" (op.url E)).c
    rw [requestDoWithAuth_GET_response E c (op.url E) resp hnr hdo]
  · intro msg hb
    rw [run_read_error E c op resp msg hnr hdo hb]
  · intro msg hb hj
    rw [run_invalid_json E c op resp msg hnr hdo hb hj]

/-- C10 at `PopularVideo 15 1` on a mock backend that reports 42 remaining
requests and answers with a page of HTML. -/
theorem counter_set_before_decoding_witness :
    Call.Do (authRequest (NewClient "token") "GET"
        "https://api.pexels.com/videos/popular?per_page=15&page=1")
      ∈ ((Op.PopularVideo 15 1).run
          (mockEnv (.ok (quotaResponse 429 "42" ⟨"<html>", none⟩)) [] [] 0)
          (NewClient "token")).calls
    ∧ Atoi 64 ((quotaResponse 429 "42" ⟨"<html>", none⟩).Header.Get "X-Ratelimit-Remaining")
      = .ok 42
    ∧ Client.GetRemainingRequestInThisMonth ((Op.PopularVideo 15 1).run
        (mockEnv (.ok (quotaResponse 429 "42" ⟨"<html>", none⟩)) [] [] 0)
        (NewClient "token")).c = 42
    ∧ ((Op.PopularVideo 15 1).run
        (mockEnv (.ok (quotaResponse 429 "42" ⟨"<html>", none⟩)) [] [] 0)
        (NewClient "token")).ret
      = .pair (some (.PopularVideo PopularVideo.zero)) (some (.invalidJSON "invalid character")) :=
  ⟨by decide, rfl,
    (counter_set_before_decoding
      (mockEnv (.ok (quotaResponse 429 "42" ⟨"<html>", none⟩)) [] [] 0) (NewClient "token")
      (.PopularVideo 15 1) (authRequest (NewClient "token") "GET"
        "https://api.pexels.com/videos/popular?per_page=15&page=1")
      (quotaResponse 429 "42" ⟨"<html>", none⟩) 42 (by decide) rfl rfl (by decide)).1,
    (counter_set_before_decoding
      (mockEnv (.ok (quotaResponse 429 "42" ⟨"<html>", none⟩)) [] [] 0) (NewClient "token")
      (.PopularVideo 15 1) (authRequest (NewClient "token") "GET"
        "https://api.pexels.com/videos/popular?per_page=15&page=1")
      (quotaResponse 429 "42" ⟨"<html>", none⟩) 42 (by decide) rfl rfl (by decide)).2.2.2
      "invalid character" rfl (by decide)⟩

end Pexels
